import Mathlib

/-!
Verification of the habit tracker's analysis engine (`src/analyze.py`).

The engine works on `datetime.date` values.  We model a date as a
year/month/day record (`PDate`) in the proleptic Gregorian calendar, with
`toOrdinal` the day count used by Python's date arithmetic (shifted so that
0001-01-01 has ordinal 0; Python uses 1, a constant shift that leaves every
difference, weekday and comparison unchanged).  `timedelta` values that the
source compares and subtracts are modelled as integer day counts.  Adding or
subtracting a `timedelta(days=n)` is modelled by `addDays`/`subDays`, which
step one calendar day at a time exactly as proleptic Gregorian dates do.

The source reads the clock via `date.today()` inside `add_future_period`,
`completed_in_period` and `calculate_completion_rate`; the model threads the
clock value through as an explicit `today` argument, so each embedded
function is the source function at a fixed clock reading.
-/

/-- A proleptic Gregorian calendar date, as in Python's `datetime.date`. -/
structure PDate where
  year : Int
  month : Nat
  day : Nat
deriving DecidableEq, Repr

instance : Inhabited PDate := ⟨⟨1, 1, 1⟩⟩

/-- Gregorian leap-year rule, as implemented by `datetime`. -/
def isLeapYear (y : Int) : Bool :=
  (y % 4 == 0 && y % 100 != 0) || (y % 400 == 0)

/-- Number of days of month `m` (1-12) of year `y`; 0 outside that range. -/
def daysInMonth (y : Int) (m : Nat) : Nat :=
  match m with
  | 1 => 31
  | 2 => if isLeapYear y then 29 else 28
  | 3 => 31
  | 4 => 30
  | 5 => 31
  | 6 => 30
  | 7 => 31
  | 8 => 31
  | 9 => 30
  | 10 => 31
  | 11 => 30
  | 12 => 31
  | _ => 0

/-- Days of year `y` that lie before month `m`. -/
def daysBeforeMonth (y : Int) : Nat → Nat
  | 0 => 0
  | m + 1 => daysBeforeMonth y m + daysInMonth y m

/-- Number of days of year `y`. -/
def daysInYear (y : Int) : Nat :=
  if isLeapYear y then 366 else 365

/-- Days before January 1 of year `y`, counted from 0001-01-01 (ordinal 0). -/
def daysBeforeYear (y : Int) : Int :=
  365 * (y - 1) + (y - 1) / 4 - (y - 1) / 100 + (y - 1) / 400

/-- The day number of a date; the ordinal used by Python's date arithmetic,
shifted so that 0001-01-01 is day 0 (Monday). -/
def toOrdinal (d : PDate) : Int :=
  daysBeforeYear d.year + (daysBeforeMonth d.year d.month : Int) + (d.day : Int) - 1

/-- A structurally well-formed calendar date. -/
def PDate.Valid (d : PDate) : Prop :=
  1 ≤ d.month ∧ d.month ≤ 12 ∧ 1 ≤ d.day ∧ d.day ≤ daysInMonth d.year d.month

instance : DecidablePred PDate.Valid := fun d =>
  inferInstanceAs (Decidable (1 ≤ d.month ∧ d.month ≤ 12 ∧ 1 ≤ d.day ∧ d.day ≤ daysInMonth d.year d.month))

/-- The calendar day after `d`. -/
def nextDay (d : PDate) : PDate :=
  if d.day < daysInMonth d.year d.month then ⟨d.year, d.month, d.day + 1⟩
  else if d.month < 12 then ⟨d.year, d.month + 1, 1⟩
  else ⟨d.year + 1, 1, 1⟩

/-- The calendar day before `d`. -/
def prevDay (d : PDate) : PDate :=
  if 1 < d.day then ⟨d.year, d.month, d.day - 1⟩
  else if 1 < d.month then ⟨d.year, d.month - 1, daysInMonth d.year (d.month - 1)⟩
  else ⟨d.year - 1, 12, 31⟩

/-- `d + timedelta(days=n)` for dates: step `n` calendar days forward. -/
def addDays (d : PDate) : Nat → PDate
  | 0 => d
  | n + 1 => addDays (nextDay d) n

/-- `d - timedelta(days=n)` for dates: step `n` calendar days backward. -/
def subDays (d : PDate) : Nat → PDate
  | 0 => d
  | n + 1 => subDays (prevDay d) n

/-- Python's `date` comparison: lexicographic on (year, month, day). -/
def PDate.le (d e : PDate) : Prop :=
  d.year < e.year ∨ (d.year = e.year ∧ (d.month < e.month ∨ (d.month = e.month ∧ d.day ≤ e.day)))

/-- Strict version of `PDate.le`. -/
def PDate.lt (d e : PDate) : Prop :=
  d.year < e.year ∨ (d.year = e.year ∧ (d.month < e.month ∨ (d.month = e.month ∧ d.day < e.day)))

instance : LE PDate := ⟨PDate.le⟩

instance : LT PDate := ⟨PDate.lt⟩

instance : DecidableRel (α := PDate) (· ≤ ·) := fun d e =>
  inferInstanceAs (Decidable (d.year < e.year ∨ (d.year = e.year ∧ (d.month < e.month ∨ (d.month = e.month ∧ d.day ≤ e.day)))))

instance : DecidableRel (α := PDate) (· < ·) := fun d e =>
  inferInstanceAs (Decidable (d.year < e.year ∨ (d.year = e.year ∧ (d.month < e.month ∨ (d.month = e.month ∧ d.day < e.day)))))

instance : IsTotal PDate (· ≤ ·) :=
  ⟨fun d e => by
    show PDate.le d e ∨ PDate.le e d
    unfold PDate.le
    omega⟩

instance : IsTrans PDate (· ≤ ·) :=
  ⟨fun d e f hde hef => by
    show PDate.le d f
    have h1 : PDate.le d e := hde
    have h2 : PDate.le e f := hef
    unfold PDate.le at h1 h2 ⊢
    omega⟩

/-- Python's timedelta subtraction of two dates, in whole days
(`t - s` where both are dates yields a `timedelta`). -/
instance : HSub PDate PDate Int := ⟨fun t s => toOrdinal t - toOrdinal s⟩

/-- Python's `date.weekday()`: Monday is 0.  Ordinal 0 (0001-01-01) was a
Monday, so the weekday is the ordinal modulo 7. -/
def PDate.weekday (d : PDate) : Nat :=
  (toOrdinal d % 7).toNat

/-! ## The analysis engine of `src/analyze.py` -/

/-- A habit's periodicity, one of the four tags the engine dispatches on. -/
inductive Periodicity
  | daily
  | weekly
  | monthly
  | yearly
deriving DecidableEq, Repr

/-- Which period `completed_in_period` is asked about (`"current"`/`"previous"`). -/
inductive PeriodName
  | current
  | previous
deriving DecidableEq, Repr

/-- A habit as the engine sees it: an opaque name, a periodicity, and the
completion dates the storage layer returns for it (`return_completions`).
Habit names are modelled as opaque numeric identifiers. -/
structure HabitDB where
  name : Nat
  periodicity : Periodicity
  completions : List PDate
deriving DecidableEq, Repr

/-- `return_completions` (analyze.py:63): the habit's completion dates.  The
storage lookup is out of scope; the model reads them off the habit record,
already parsed from their ISO strings. -/
def return_completions (habit : HabitDB) : List PDate :=
  habit.completions

/-- `weekly_start` (analyze.py:111): the Monday on or before the date. -/
def weekly_start (check_date : PDate) : PDate :=
  subDays check_date check_date.weekday

/-- `monthly_start` (analyze.py:123): the first day of the date's month,
computed as in the source by subtracting `day - 1` days. -/
def monthly_start (check_date : PDate) : PDate :=
  subDays check_date (check_date.day - 1)

/-- `yearly_start` (analyze.py:133): January 1 of the date's year. -/
def yearly_start (check_date : PDate) : PDate :=
  ⟨check_date.year, 1, 1⟩

/-- `calculate_period_starts` (analyze.py:142): map each completion date to
the start of its period.  The source's `isinstance` branch converting ISO
strings to dates is a no-op here because the model works on dates directly. -/
def calculate_period_starts (periodicity : Periodicity) (check_dates : List PDate) : List PDate :=
  let period_start_func :=
    match periodicity with
    | .daily => fun x => x
    | .weekly => weekly_start
    | .monthly => monthly_start
    | .yearly => yearly_start
  check_dates.map period_start_func

/-- `calculate_one_period_start` (analyze.py:162): period start of one date. -/
def calculate_one_period_start (periodicity : Periodicity) (check_date : PDate) : PDate :=
  (calculate_period_starts periodicity [check_date]).headI

/-- `tidy_starts` (analyze.py:173): `sorted(list(set(period_starts)))`. -/
def tidy_starts (period_starts : List PDate) : List PDate :=
  List.insertionSort (· ≤ ·) period_starts.dedup

/-- `return_allowed_time` (analyze.py:182): the timedelta (in days) allowed
between two consecutive completed periods before the streak counts as broken. -/
def return_allowed_time (periodicity : Periodicity) : Int :=
  match periodicity with
  | .daily => 1
  | .weekly => 7
  | .monthly => 32
  | .yearly => 366

/-- `add_future_period` (analyze.py:198): append the period start of
`today + 2 * allowed_time`.  The source reads `date.today()`; the model takes
that clock value as the explicit argument `today`. -/
def add_future_period (tidy_period_starts : List PDate) (periodicity : Periodicity) (today : PDate) : List PDate :=
  let duration := return_allowed_time periodicity
  let future_period := calculate_one_period_start periodicity (addDays today (2 * duration).toNat)
  tidy_period_starts ++ [future_period]

/-- `return_final_period_starts` (analyze.py:214): the tidy period starts of
the habit's completions plus the synthetic future period. -/
def return_final_period_starts (habit : HabitDB) (today : PDate) : List PDate :=
  let check_dates := return_completions habit
  let period_starts := calculate_period_starts habit.periodicity check_dates
  let tidy_periods := tidy_starts period_starts
  add_future_period tidy_periods habit.periodicity today

/-- `calculate_element_diffs` (analyze.py:229): differences of consecutive
elements.  The source applies it both to date lists (yielding timedeltas,
modelled as `Int` day counts) and to integer lists, hence the `HSub`
polymorphism. -/
def calculate_element_diffs {α β : Type} [HSub α α β] (final_periods : List α) : List β :=
  (final_periods.zip final_periods.tail).map (fun st => st.2 - st.1)

/-- `calculate_break_indices` (analyze.py:239): indices of consecutive gaps
exceeding the allowed time. -/
def calculate_break_indices (final_periods : List PDate) (periodicity : Periodicity) : List Nat :=
  let diffs : List Int := calculate_element_diffs final_periods
  let allowed_time := return_allowed_time periodicity
  (diffs.enum.filter (fun iv => decide (allowed_time < iv.2))).map (fun iv => iv.1)

/-- `calculate_streak_lengths` (analyze.py:253): consecutive differences of
`[-1] ++ break_indices`. -/
def calculate_streak_lengths (habit : HabitDB) (today : PDate) : List Int :=
  let final_periods := return_final_period_starts habit today
  let break_indices := calculate_break_indices final_periods habit.periodicity
  calculate_element_diffs ((-1 : Int) :: break_indices.map Int.ofNat)

/-- `calculate_longest_streak` (analyze.py:268): `max(streak_lengths)`.
Python's `max` raises on an empty sequence; `none` models that raise. -/
def calculate_longest_streak (habit : HabitDB) (today : PDate) : Option Int :=
  (calculate_streak_lengths habit today).max?

/-- `completed_in_period` (analyze.py:324): is the current (or the previous)
period start among the final periods?  The previous period start is the
period start of `current period start - timedelta(days=1)`.  The source reads
`date.today()`; the model takes that clock value as `today`. -/
def completed_in_period (final_periods : List PDate) (periodicity : Periodicity) (period : PeriodName) (today : PDate) : Bool :=
  let cur_period_start := calculate_one_period_start periodicity today
  match period with
  | .current => decide (cur_period_start ∈ final_periods)
  | .previous =>
    let prev_period_start := calculate_one_period_start periodicity (subDays cur_period_start 1)
    decide (prev_period_start ∈ final_periods)

/-- `calculate_curr_streak` (analyze.py:341).  The `streak_lengths[-1]` read
raises on an empty list in Python; `getLast?` models that, `some` a normal
return. -/
def calculate_curr_streak (habit : HabitDB) (today : PDate) : Option Int :=
  let final_periods := return_final_period_starts habit today
  if completed_in_period final_periods habit.periodicity .previous today = false then
    if completed_in_period final_periods habit.periodicity .current today = false then some 0 else some 1
  else
    (calculate_streak_lengths habit today).getLast?

/-- `calculate_break_no` (analyze.py:359): number of real streak breaks. -/
def calculate_break_no (habit : HabitDB) (today : PDate) : Int :=
  let final_periods := return_final_period_starts habit today
  let break_indices := calculate_break_indices final_periods habit.periodicity
  let curr_period := completed_in_period final_periods habit.periodicity .current today
  let prev_period := completed_in_period final_periods habit.periodicity .previous today
  if curr_period || prev_period then (break_indices.length : Int) - 1
  else (break_indices.length : Int)

/-- `calculate_completion_rate` (analyze.py:379): completed periods in the
four weeks before the current period, divided by 28 (daily) or 4 (otherwise).
Python's float division is modelled with exact rationals.  The source reads
`date.today()`; the model takes that clock value as `today`. -/
def calculate_completion_rate (habit : HabitDB) (today : PDate) : ℚ :=
  let final_periods := return_final_period_starts habit today
  let no_possible_periods : ℚ := if habit.periodicity = .daily then 28 else 4
  let cur_period := calculate_one_period_start habit.periodicity today
  let period_4_weeks_ago := calculate_one_period_start habit.periodicity (subDays cur_period 28)
  let completed_periods_4_weeks :=
    final_periods.filter (fun x => decide (period_4_weeks_ago ≤ x ∧ x < cur_period))
  (completed_periods_4_weeks.length : ℚ) / no_possible_periods

/-- `calculate_longest_streak_per_habit` (analyze.py:289): `None` for an
empty habit list, otherwise the name-to-longest-streak mapping (Python's
`dict(zip(names, streaks))`, modelled as an association list). -/
def calculate_longest_streak_per_habit (completed_habits : List HabitDB) (today : PDate) : Option (List (Nat × Option Int)) :=
  if completed_habits.length = 0 then none
  else some (completed_habits.map (fun h => (h.name, calculate_longest_streak h today)))

/-- `calculate_longest_streak_of_all` (analyze.py:304): `(None, None)` when
there is no data, otherwise the maximal longest streak and every habit name
achieving it.  Python's `max(dict, key=dict.get)` picks a key of maximal
value; the model takes the maximum of the recorded values directly
(`reduceOption` drops the values for which the per-habit computation would
have raised; for habits with at least one completion none are dropped). -/
def calculate_longest_streak_of_all (completed_habits : List HabitDB) (today : PDate) : Option Int × Option (List Nat) :=
  match calculate_longest_streak_per_habit completed_habits today with
  | none => (none, none)
  | some [] => (none, none)
  | some longest_streaks =>
    match ((longest_streaks.map (fun p => p.2)).reduceOption).max? with
    | none => (none, none)
    | some longest_streak_of_all =>
      (some longest_streak_of_all,
       some ((longest_streaks.filter (fun p => decide (p.2 = some longest_streak_of_all))).map (fun p => p.1)))

/-- `calculate_completion_rate_per_habit` (analyze.py:396): completion rates
of the daily and weekly habits only, as a name-to-rate association list. -/
def calculate_completion_rate_per_habit (completed_habits : List HabitDB) (today : PDate) : List (Nat × ℚ) :=
  let frequent_habits :=
    completed_habits.filter (fun h => decide (h.periodicity = .daily ∨ h.periodicity = .weekly))
  frequent_habits.map (fun h => (h.name, calculate_completion_rate h today))

/-- A raised Python exception, surfaced to the caller. -/
inductive PyError
  | valueError
deriving DecidableEq, Repr

/-- `calculate_worst_completion_rate_of_all` (analyze.py:410): the lowest
completion rate and every habit name achieving it.  Python's
`min(dict, key=dict.get)` raises `ValueError` on an empty dict, which
happens exactly when the rate list is empty; `Except.error` models that. -/
def calculate_worst_completion_rate_of_all (completed_habits : List HabitDB) (today : PDate) : Except PyError (ℚ × List Nat) :=
  let completion_rates := calculate_completion_rate_per_habit completed_habits today
  match (completion_rates.map (fun p => p.2)).min? with
  | none => .error .valueError
  | some lowest_completion_rate =>
    .ok (lowest_completion_rate,
         (completion_rates.filter (fun p => decide (p.2 = lowest_completion_rate))).map (fun p => p.1))
/-! ## Calendar lemmas -/

theorem daysInMonth_bounds (y : Int) (m : Nat) (h1 : 1 ≤ m) (h12 : m ≤ 12) :
    28 ≤ daysInMonth y m ∧ daysInMonth y m ≤ 31 := by
  interval_cases m <;> simp only [daysInMonth] <;> first
    | omega
    | (split <;> omega)

theorem daysInYear_bounds (y : Int) : 365 ≤ daysInYear y ∧ daysInYear y ≤ 366 := by
  unfold daysInYear
  split <;> omega

theorem daysBeforeMonth_succ (y : Int) (m : Nat) :
    daysBeforeMonth y (m + 1) = daysBeforeMonth y m + daysInMonth y m := rfl

theorem daysBeforeMonth_mono (y : Int) {m m' : Nat} (h : m ≤ m') :
    daysBeforeMonth y m ≤ daysBeforeMonth y m' := by
  induction m' with
  | zero =>
    have hm : m = 0 := by omega
    subst hm
    exact Nat.le.refl
  | succ k ih =>
    rcases Nat.lt_or_ge m (k + 1) with hl | hg
    · have hk : m ≤ k := by omega
      calc daysBeforeMonth y m ≤ daysBeforeMonth y k := ih hk
      _ ≤ daysBeforeMonth y k + daysInMonth y k := Nat.le_add_right _ _
      _ = daysBeforeMonth y (k + 1) := (daysBeforeMonth_succ y k).symm
    · have hk : m = k + 1 := by omega
      subst hk
      exact Nat.le.refl

theorem daysBeforeMonth_thirteen (y : Int) : daysBeforeMonth y 13 = daysInYear y := by
  cases h : isLeapYear y <;>
    simp [daysBeforeMonth, daysInMonth, daysInYear, h]

theorem daysBeforeYear_succ (y : Int) :
    daysBeforeYear (y + 1) = daysBeforeYear y + daysInYear y := by
  unfold daysBeforeYear daysInYear isLeapYear
  simp only [add_sub_cancel_right]
  split
  next h =>
    simp only [Bool.or_eq_true, Bool.and_eq_true, beq_iff_eq, bne_iff_ne] at h
    omega
  next h =>
    simp only [Bool.or_eq_true, Bool.and_eq_true, beq_iff_eq, bne_iff_ne] at h
    push_neg at h
    omega

theorem daysBeforeYear_add_le (y : Int) (k : Nat) :
    daysBeforeYear y + 365 * k ≤ daysBeforeYear (y + k) := by
  induction k with
  | zero => simp
  | succ n ih =>
    have hy : daysBeforeYear (y + (n + 1) : Int) = daysBeforeYear (y + n) + daysInYear (y + n) := by
      have h := daysBeforeYear_succ (y + n)
      calc daysBeforeYear (y + (n + 1) : Int) = daysBeforeYear (y + n + 1) := by ring_nf
      _ = daysBeforeYear (y + n) + daysInYear (y + n) := h
    have hb := (daysInYear_bounds (y + n)).1
    push_cast
    push_cast at ih
    omega

theorem daysBeforeYear_mono {y y' : Int} (h : y ≤ y') :
    daysBeforeYear y ≤ daysBeforeYear y' := by
  have hk := daysBeforeYear_add_le y (y' - y).toNat
  have hy : y + ((y' - y).toNat : Int) = y' := by omega
  rw [hy] at hk
  omega

theorem toOrdinal_lower {d : PDate} (h : d.Valid) : daysBeforeYear d.year ≤ toOrdinal d := by
  obtain ⟨h1, _, h3, _⟩ := h
  unfold toOrdinal
  omega

theorem toOrdinal_upper {d : PDate} (h : d.Valid) :
    toOrdinal d < daysBeforeYear d.year + daysInYear d.year := by
  obtain ⟨h1, h2, h3, h4⟩ := h
  have hm : daysBeforeMonth d.year d.month + daysInMonth d.year d.month ≤ daysInYear d.year := by
    calc daysBeforeMonth d.year d.month + daysInMonth d.year d.month
        = daysBeforeMonth d.year (d.month + 1) := (daysBeforeMonth_succ _ _).symm
    _ ≤ daysBeforeMonth d.year 13 := daysBeforeMonth_mono _ (by omega)
    _ = daysInYear d.year := daysBeforeMonth_thirteen _
  unfold toOrdinal
  omega

theorem toOrdinal_nextDay {d : PDate} (h : d.Valid) :
    toOrdinal (nextDay d) = toOrdinal d + 1 := by
  obtain ⟨h1, h2, h3, h4⟩ := h
  unfold nextDay
  split
  next hlt =>
    simp only [toOrdinal]
    omega
  next hge =>
    have hday : d.day = daysInMonth d.year d.month := by omega
    split
    next hm =>
      have hsucc := daysBeforeMonth_succ d.year d.month
      simp only [toOrdinal]
      omega
    next hm =>
      have h12 : d.month = 12 := by omega
      have hy : daysBeforeYear (d.year + 1) = daysBeforeYear d.year + daysInYear d.year :=
        daysBeforeYear_succ d.year
      have h13 : daysBeforeMonth d.year 13 = daysInYear d.year := daysBeforeMonth_thirteen d.year
      have h1213 : daysBeforeMonth d.year 13 = daysBeforeMonth d.year 12 + daysInMonth d.year 12 :=
        daysBeforeMonth_succ d.year 12
      have hd31 : daysInMonth d.year 12 = 31 := rfl
      have hz : daysBeforeMonth (d.year + 1) 1 = 0 := rfl
      simp only [toOrdinal, h12] at *
      omega

theorem valid_nextDay {d : PDate} (h : d.Valid) : (nextDay d).Valid := by
  obtain ⟨h1, h2, h3, h4⟩ := h
  unfold nextDay
  split
  next hlt =>
    simp only [PDate.Valid]
    omega
  next hge =>
    split
    next hm =>
      have hb := (daysInMonth_bounds d.year (d.month + 1) (by omega) (by omega)).1
      simp only [PDate.Valid]
      omega
    next hm =>
      have hb : daysInMonth (d.year + 1) 1 = 31 := rfl
      simp only [PDate.Valid]
      omega

theorem toOrdinal_prevDay {d : PDate} (h : d.Valid) :
    toOrdinal (prevDay d) = toOrdinal d - 1 := by
  obtain ⟨h1, h2, h3, h4⟩ := h
  unfold prevDay
  split
  next hlt =>
    simp only [toOrdinal]
    omega
  next hge =>
    have hday : d.day = 1 := by omega
    split
    next hm =>
      have hsucc : daysBeforeMonth d.year (d.month - 1 + 1) =
          daysBeforeMonth d.year (d.month - 1) + daysInMonth d.year (d.month - 1) :=
        daysBeforeMonth_succ _ _
      have hmm : d.month - 1 + 1 = d.month := by omega
      rw [hmm] at hsucc
      simp only [toOrdinal]
      omega
    next hm =>
      have hm1 : d.month = 1 := by omega
      have hy : daysBeforeYear (d.year - 1 + 1) = daysBeforeYear (d.year - 1) + daysInYear (d.year - 1) :=
        daysBeforeYear_succ (d.year - 1)
      have hyy : d.year - 1 + 1 = d.year := by omega
      rw [hyy] at hy
      have h13 : daysBeforeMonth (d.year - 1) 13 = daysInYear (d.year - 1) :=
        daysBeforeMonth_thirteen (d.year - 1)
      have h1213 : daysBeforeMonth (d.year - 1) 13 =
          daysBeforeMonth (d.year - 1) 12 + daysInMonth (d.year - 1) 12 :=
        daysBeforeMonth_succ (d.year - 1) 12
      have hd31 : daysInMonth (d.year - 1) 12 = 31 := rfl
      have hz : daysBeforeMonth d.year 1 = 0 := rfl
      simp only [toOrdinal, hm1] at *
      omega

theorem valid_prevDay {d : PDate} (h : d.Valid) : (prevDay d).Valid := by
  obtain ⟨h1, h2, h3, h4⟩ := h
  unfold prevDay
  split
  next hlt =>
    simp only [PDate.Valid]
    omega
  next hge =>
    split
    next hm =>
      have hb := (daysInMonth_bounds d.year (d.month - 1) (by omega) (by omega)).1
      simp only [PDate.Valid]
      omega
    next hm =>
      have hb : daysInMonth (d.year - 1) 12 = 31 := rfl
      simp only [PDate.Valid]
      omega

theorem valid_addDays {d : PDate} (h : d.Valid) (n : Nat) : (addDays d n).Valid := by
  induction n generalizing d with
  | zero => exact h
  | succ k ih => exact ih (valid_nextDay h)

theorem toOrdinal_addDays {d : PDate} (h : d.Valid) (n : Nat) :
    toOrdinal (addDays d n) = toOrdinal d + n := by
  induction n generalizing d with
  | zero => simp [addDays]
  | succ k ih =>
    have hs : addDays d (k + 1) = addDays (nextDay d) k := rfl
    rw [hs, ih (valid_nextDay h), toOrdinal_nextDay h]
    push_cast
    ring

theorem valid_subDays {d : PDate} (h : d.Valid) (n : Nat) : (subDays d n).Valid := by
  induction n generalizing d with
  | zero => exact h
  | succ k ih => exact ih (valid_prevDay h)

theorem toOrdinal_subDays {d : PDate} (h : d.Valid) (n : Nat) :
    toOrdinal (subDays d n) = toOrdinal d - n := by
  induction n generalizing d with
  | zero => simp [subDays]
  | succ k ih =>
    have hs : subDays d (k + 1) = subDays (prevDay d) k := rfl
    rw [hs, ih (valid_prevDay h), toOrdinal_prevDay h]
    push_cast
    ring

theorem toOrdinal_lt_of_lt {d e : PDate} (hd : d.Valid) (he : e.Valid) (h : d < e) :
    toOrdinal d < toOrdinal e := by
  obtain ⟨hd1, hd2, hd3, hd4⟩ := hd
  obtain ⟨he1, he2, he3, he4⟩ := he
  have hlt : PDate.lt d e := h
  unfold PDate.lt at hlt
  rcases hlt with hy | ⟨hy, hm | ⟨hm, hday⟩⟩
  · have h1 : toOrdinal d < daysBeforeYear d.year + daysInYear d.year :=
      toOrdinal_upper ⟨hd1, hd2, hd3, hd4⟩
    have h2 : daysBeforeYear d.year + daysInYear d.year = daysBeforeYear (d.year + 1) :=
      (daysBeforeYear_succ d.year).symm
    have h3 : daysBeforeYear (d.year + 1) ≤ daysBeforeYear e.year :=
      daysBeforeYear_mono (by omega)
    have h4 : daysBeforeYear e.year ≤ toOrdinal e := toOrdinal_lower ⟨he1, he2, he3, he4⟩
    omega
  · have h1 : daysBeforeMonth e.year d.month + daysInMonth e.year d.month =
        daysBeforeMonth e.year (d.month + 1) := (daysBeforeMonth_succ _ _).symm
    have h2 : daysBeforeMonth e.year (d.month + 1) ≤ daysBeforeMonth e.year e.month :=
      daysBeforeMonth_mono _ (by omega)
    have hd4' : d.day ≤ daysInMonth e.year d.month := by
      rw [← hy]
      exact hd4
    unfold toOrdinal
    rw [hy]
    omega
  · unfold toOrdinal
    rw [hy, hm] at *
    omega

theorem pdate_lt_trichotomy (d e : PDate) : d < e ∨ d = e ∨ e < d := by
  obtain ⟨y, m, dd⟩ := d
  obtain ⟨y', m', dd'⟩ := e
  show PDate.lt _ _ ∨ _ ∨ PDate.lt _ _
  simp only [PDate.lt, PDate.mk.injEq]
  omega

theorem pdate_le_iff (d e : PDate) : d ≤ e ↔ d < e ∨ d = e := by
  obtain ⟨y, m, dd⟩ := d
  obtain ⟨y', m', dd'⟩ := e
  show PDate.le _ _ ↔ PDate.lt _ _ ∨ _
  simp only [PDate.le, PDate.lt, PDate.mk.injEq]
  omega

theorem eq_of_toOrdinal_eq {d e : PDate} (hd : d.Valid) (he : e.Valid)
    (h : toOrdinal d = toOrdinal e) : d = e := by
  rcases pdate_lt_trichotomy d e with hlt | heq | hgt
  · exact absurd (toOrdinal_lt_of_lt hd he hlt) (by omega)
  · exact heq
  · exact absurd (toOrdinal_lt_of_lt he hd hgt) (by omega)

theorem lt_of_toOrdinal_lt {d e : PDate} (hd : d.Valid) (he : e.Valid)
    (h : toOrdinal d < toOrdinal e) : d < e := by
  rcases pdate_lt_trichotomy d e with hlt | heq | hgt
  · exact hlt
  · rw [heq] at h
    omega
  · exact absurd (toOrdinal_lt_of_lt he hd hgt) (by omega)

theorem toOrdinal_le_of_le {d e : PDate} (hd : d.Valid) (he : e.Valid) (h : d ≤ e) :
    toOrdinal d ≤ toOrdinal e := by
  rcases (pdate_le_iff d e).mp h with hlt | heq
  · exact le_of_lt (toOrdinal_lt_of_lt hd he hlt)
  · rw [heq]

theorem pdate_lt_irrefl (d : PDate) : ¬ d < d := by
  intro h
  have hlt : PDate.lt d d := h
  unfold PDate.lt at hlt
  omega

theorem pdate_ne_of_lt {d e : PDate} (h : d < e) : d ≠ e := by
  intro heq
  rw [heq] at h
  exact pdate_lt_irrefl e h

/-! ## Period bucketing lemmas -/

/-- How far a period start can lie before the date it is computed from:
0 days for daily, up to 6 for weekly, 30 for monthly, 365 for yearly. -/
def period_slack : Periodicity → Int
  | .daily => 0
  | .weekly => 6
  | .monthly => 30
  | .yearly => 365

theorem one_period_start_daily (d : PDate) : calculate_one_period_start .daily d = d := rfl

theorem one_period_start_weekly (d : PDate) : calculate_one_period_start .weekly d = weekly_start d := rfl

theorem one_period_start_monthly (d : PDate) : calculate_one_period_start .monthly d = monthly_start d := rfl

theorem one_period_start_yearly (d : PDate) : calculate_one_period_start .yearly d = yearly_start d := rfl

theorem weekly_start_spec {d : PDate} (h : d.Valid) :
    (weekly_start d).Valid ∧ toOrdinal (weekly_start d) = toOrdinal d - toOrdinal d % 7 := by
  have hmod : 0 ≤ toOrdinal d % 7 := Int.emod_nonneg _ (by omega)
  have hcast : ((toOrdinal d % 7).toNat : Int) = toOrdinal d % 7 := Int.toNat_of_nonneg hmod
  refine ⟨valid_subDays h _, ?_⟩
  rw [weekly_start, PDate.weekday, toOrdinal_subDays h, hcast]

theorem monthly_start_spec {d : PDate} (h : d.Valid) :
    (monthly_start d).Valid ∧ toOrdinal (monthly_start d) = toOrdinal d - (d.day - 1 : Nat) := by
  exact ⟨valid_subDays h _, toOrdinal_subDays h _⟩

theorem yearly_start_spec {d : PDate} (h : d.Valid) :
    (yearly_start d).Valid ∧ toOrdinal (yearly_start d) = daysBeforeYear d.year := by
  obtain ⟨h1, h2, h3, h4⟩ := h
  constructor
  · exact ⟨by show (1:Nat) ≤ 1; omega, by show (1:Nat) ≤ 12; omega,
      by show (1:Nat) ≤ 1; omega, by show (1:Nat) ≤ 31; omega⟩
  · have hz : daysBeforeMonth d.year 1 = 0 := rfl
    simp only [yearly_start, toOrdinal, hz]
    omega

theorem period_start_valid {d : PDate} (h : d.Valid) (p : Periodicity) :
    (calculate_one_period_start p d).Valid := by
  cases p
  · exact h
  · exact (weekly_start_spec h).1
  · exact (monthly_start_spec h).1
  · exact (yearly_start_spec h).1

theorem period_start_bounds {d : PDate} (h : d.Valid) (p : Periodicity) :
    toOrdinal d - period_slack p ≤ toOrdinal (calculate_one_period_start p d) ∧
      toOrdinal (calculate_one_period_start p d) ≤ toOrdinal d := by
  cases p
  · simp [one_period_start_daily, period_slack]
  · rw [one_period_start_weekly, (weekly_start_spec h).2]
    have h7 : 0 ≤ toOrdinal d % 7 ∧ toOrdinal d % 7 < 7 :=
      ⟨Int.emod_nonneg _ (by omega), Int.emod_lt_of_pos _ (by omega)⟩
    have hs : period_slack Periodicity.weekly = 6 := rfl
    omega
  · rw [one_period_start_monthly, (monthly_start_spec h).2]
    obtain ⟨h1, h2, h3, h4⟩ := h
    have hdim := (daysInMonth_bounds d.year d.month h1 h2).2
    have hs : period_slack Periodicity.monthly = 30 := rfl
    omega
  · rw [one_period_start_yearly, (yearly_start_spec h).2]
    have hlow := toOrdinal_lower h
    have hup := toOrdinal_upper h
    have hy := (daysInYear_bounds d.year).2
    have hs : period_slack Periodicity.yearly = 365 := rfl
    omega

theorem mem_calculate_period_starts {p : Periodicity} {l : List PDate} {x : PDate} :
    x ∈ calculate_period_starts p l ↔ ∃ c ∈ l, calculate_one_period_start p c = x := by
  cases p <;> simp [calculate_period_starts, calculate_one_period_start]

/-! ## Period set builder lemmas -/

theorem mem_tidy_starts {l : List PDate} {x : PDate} : x ∈ tidy_starts l ↔ x ∈ l := by
  unfold tidy_starts
  rw [(List.perm_insertionSort _ _).mem_iff, List.mem_dedup]

theorem tidy_starts_sorted (l : List PDate) : List.Sorted (· ≤ ·) (tidy_starts l) :=
  List.sorted_insertionSort _ _

theorem tidy_starts_nodup (l : List PDate) : (tidy_starts l).Nodup :=
  ((List.perm_insertionSort _ _).nodup_iff).mpr (List.nodup_dedup l)

theorem tidy_starts_ne_nil {l : List PDate} (h : l ≠ []) : tidy_starts l ≠ [] := by
  obtain ⟨x, hx⟩ := List.exists_mem_of_ne_nil l h
  intro hnil
  have hmem := (mem_tidy_starts (l := l) (x := x)).mpr hx
  rw [hnil] at hmem
  exact absurd hmem (List.not_mem_nil x)

theorem tidy_starts_pairwise_lt (l : List PDate) : List.Pairwise (· < ·) (tidy_starts l) := by
  have hs : List.Pairwise (· ≤ ·) (tidy_starts l) := tidy_starts_sorted l
  have hn : List.Pairwise (· ≠ ·) (tidy_starts l) := tidy_starts_nodup l
  have hand := hs.and hn
  refine hand.imp ?_
  rintro a b ⟨hab, hne⟩
  rcases (pdate_le_iff a b).mp hab with hlt | heq
  · exact hlt
  · exact absurd heq hne

/-! ## Streak/break analyzer lemmas -/

theorem element_diffs_length {α β : Type} [HSub α α β] (l : List α) :
    (calculate_element_diffs l : List β).length = l.length - 1 := by
  unfold calculate_element_diffs
  rw [List.length_map, List.length_zip, List.length_tail]
  omega

theorem element_diffs_append_last {α β : Type} [HSub α α β] (l : List α) (x : α) (h : l ≠ []) :
    (calculate_element_diffs (l ++ [x]) : List β) =
      calculate_element_diffs l ++ [x - l.getLast h] := by
  induction l with
  | nil => contradiction
  | cons a t ih =>
    cases t with
    | nil => rfl
    | cons b t2 =>
      have hbt : b :: t2 ≠ [] := by simp
      have h1 : (calculate_element_diffs ((a :: b :: t2) ++ [x]) : List β) =
          (b - a) :: calculate_element_diffs ((b :: t2) ++ [x]) := rfl
      have h2 : (calculate_element_diffs (a :: b :: t2) : List β) =
          (b - a) :: calculate_element_diffs (b :: t2) := rfl
      have h3 : (a :: b :: t2).getLast h = (b :: t2).getLast hbt := List.getLast_cons hbt
      rw [h1, ih hbt, h2, h3]
      rfl

theorem element_diffs_sum (l : List Int) (h : l ≠ []) :
    (calculate_element_diffs l : List Int).sum = l.getLast h - l.head h := by
  induction l with
  | nil => contradiction
  | cons a t ih =>
    cases t with
    | nil => simp [calculate_element_diffs]
    | cons b t2 =>
      have hbt : b :: t2 ≠ [] := by simp
      have h1 : (calculate_element_diffs (a :: b :: t2) : List Int) =
          (b - a) :: calculate_element_diffs (b :: t2) := rfl
      have h3 : (a :: b :: t2).getLast h = (b :: t2).getLast hbt := List.getLast_cons hbt
      rw [h1, List.sum_cons, ih hbt, h3, List.head_cons, List.head_cons]
      ring

theorem break_indices_append (l : List PDate) (x : PDate) (h : l ≠ []) (p : Periodicity)
    (hgap : return_allowed_time p < x - l.getLast h) :
    calculate_break_indices (l ++ [x]) p =
      calculate_break_indices l p ++ [l.length - 1] := by
  simp only [calculate_break_indices]
  rw [element_diffs_append_last l x h, List.enum_append, List.filter_append, List.map_append]
  congr 1
  rw [List.enumFrom_singleton]
  have hd : decide (return_allowed_time p < x - l.getLast h) = true := decide_eq_true hgap
  have hlen : (calculate_element_diffs l : List Int).length = l.length - 1 :=
    element_diffs_length l
  simp [List.filter, hd, hlen]

/-! ## Structure of the final period-start sequence -/

theorem final_periods_eq (habit : HabitDB) (today : PDate) :
    return_final_period_starts habit today =
      tidy_starts (calculate_period_starts habit.periodicity habit.completions) ++
        [calculate_one_period_start habit.periodicity
          (addDays today (2 * return_allowed_time habit.periodicity).toNat)] := rfl

theorem allowed_time_pos (p : Periodicity) : 1 ≤ return_allowed_time p := by
  cases p <;> decide

theorem future_period_gap {p : Periodicity} {today : PDate} (htoday : today.Valid) :
    toOrdinal today + return_allowed_time p <
      toOrdinal (calculate_one_period_start p (addDays today (2 * return_allowed_time p).toNat)) := by
  have hv : (addDays today (2 * return_allowed_time p).toNat).Valid :=
    valid_addDays htoday _
  have hb := period_start_bounds hv p
  have ho := toOrdinal_addDays htoday (2 * return_allowed_time p).toNat
  rw [ho] at hb
  cases p
  · have ha : return_allowed_time Periodicity.daily = 1 := rfl
    have hs : period_slack Periodicity.daily = 0 := rfl
    have hc : ((2 * return_allowed_time Periodicity.daily).toNat : Int) = 2 := by decide
    omega
  · have ha : return_allowed_time Periodicity.weekly = 7 := rfl
    have hs : period_slack Periodicity.weekly = 6 := rfl
    have hc : ((2 * return_allowed_time Periodicity.weekly).toNat : Int) = 14 := by decide
    omega
  · have ha : return_allowed_time Periodicity.monthly = 32 := rfl
    have hs : period_slack Periodicity.monthly = 30 := rfl
    have hc : ((2 * return_allowed_time Periodicity.monthly).toNat : Int) = 64 := by decide
    omega
  · have ha : return_allowed_time Periodicity.yearly = 366 := rfl
    have hs : period_slack Periodicity.yearly = 365 := rfl
    have hc : ((2 * return_allowed_time Periodicity.yearly).toNat : Int) = 732 := by decide
    omega

theorem future_period_valid {p : Periodicity} {today : PDate} (htoday : today.Valid) :
    (calculate_one_period_start p (addDays today (2 * return_allowed_time p).toNat)).Valid :=
  period_start_valid (valid_addDays htoday _) p

theorem tidy_mem_le_today {habit : HabitDB} {today : PDate} (htoday : today.Valid)
    (hvalid : ∀ c ∈ habit.completions, c.Valid) (hle : ∀ c ∈ habit.completions, c ≤ today)
    {x : PDate}
    (hx : x ∈ tidy_starts (calculate_period_starts habit.periodicity habit.completions)) :
    x.Valid ∧ toOrdinal x ≤ toOrdinal today := by
  rw [mem_tidy_starts, mem_calculate_period_starts] at hx
  obtain ⟨c, hc, rfl⟩ := hx
  have hcv := hvalid c hc
  have hb := period_start_bounds hcv habit.periodicity
  have hco := toOrdinal_le_of_le hcv htoday (hle c hc)
  exact ⟨period_start_valid hcv _, by omega⟩

theorem tidy_completions_ne_nil {habit : HabitDB} (hne : habit.completions ≠ []) :
    tidy_starts (calculate_period_starts habit.periodicity habit.completions) ≠ [] := by
  apply tidy_starts_ne_nil
  unfold calculate_period_starts
  intro h
  exact hne (List.map_eq_nil_iff.mp h)

theorem final_gap {habit : HabitDB} {today : PDate} (htoday : today.Valid)
    (hne : habit.completions ≠ [])
    (hvalid : ∀ c ∈ habit.completions, c.Valid) (hle : ∀ c ∈ habit.completions, c ≤ today) :
    return_allowed_time habit.periodicity <
      calculate_one_period_start habit.periodicity
          (addDays today (2 * return_allowed_time habit.periodicity).toNat) -
        (tidy_starts (calculate_period_starts habit.periodicity habit.completions)).getLast
          (tidy_completions_ne_nil hne) := by
  set tidy := tidy_starts (calculate_period_starts habit.periodicity habit.completions) with htidy
  have hmem : tidy.getLast (tidy_completions_ne_nil hne) ∈ tidy := List.getLast_mem _
  have hlast := tidy_mem_le_today htoday hvalid hle hmem
  have hfut := future_period_gap (p := habit.periodicity) htoday
  have hgoal : return_allowed_time habit.periodicity <
      toOrdinal (calculate_one_period_start habit.periodicity
          (addDays today (2 * return_allowed_time habit.periodicity).toNat)) -
        toOrdinal (tidy.getLast (tidy_completions_ne_nil hne)) := by omega
  exact hgoal

theorem final_break_indices {habit : HabitDB} {today : PDate} (htoday : today.Valid)
    (hne : habit.completions ≠ [])
    (hvalid : ∀ c ∈ habit.completions, c.Valid) (hle : ∀ c ∈ habit.completions, c ≤ today) :
    calculate_break_indices (return_final_period_starts habit today) habit.periodicity =
      calculate_break_indices
          (tidy_starts (calculate_period_starts habit.periodicity habit.completions))
          habit.periodicity ++
        [(tidy_starts (calculate_period_starts habit.periodicity habit.completions)).length - 1] := by
  rw [final_periods_eq]
  exact break_indices_append _ _ (tidy_completions_ne_nil hne) _
    (final_gap htoday hne hvalid hle)

theorem sum_diffs_cons_concat (a : Int) (bs : List Int) (x : Int) :
    (calculate_element_diffs (a :: (bs ++ [x])) : List Int).sum = x - a := by
  induction bs generalizing a with
  | nil => simp [calculate_element_diffs]
  | cons b t ih =>
    rw [List.cons_append]
    have h1 : (calculate_element_diffs (a :: b :: (t ++ [x])) : List Int) =
        (b - a) :: calculate_element_diffs (b :: (t ++ [x])) := rfl
    rw [h1, List.sum_cons, ih b]
    ring

/-- C4: for every habit with a non-empty completion history whose completions
are valid dates on or before the (valid) current date, the break-index list
computed from the final period starts contains at least one index: the
appended synthetic future period always makes the final gap exceed the
periodicity's allowed gap. -/
theorem C4_break_indices_ne_nil (habit : HabitDB) (today : PDate)
    (htoday : today.Valid) (hne : habit.completions ≠ [])
    (hvalid : ∀ c ∈ habit.completions, c.Valid) (hle : ∀ c ∈ habit.completions, c ≤ today) :
    calculate_break_indices (return_final_period_starts habit today) habit.periodicity ≠ [] := by
  rw [final_break_indices htoday hne hvalid hle]
  simp

/-- C4 witness: the hypotheses hold and the conclusion follows at a concrete
daily habit. -/
theorem C4_witness :
    (⟨2022, 1, 2⟩ : PDate).Valid ∧
    ([⟨2021, 12, 24⟩, ⟨2021, 12, 25⟩, ⟨2021, 12, 27⟩] : List PDate) ≠ [] ∧
    (∀ c ∈ ([⟨2021, 12, 24⟩, ⟨2021, 12, 25⟩, ⟨2021, 12, 27⟩] : List PDate), c.Valid) ∧
    (∀ c ∈ ([⟨2021, 12, 24⟩, ⟨2021, 12, 25⟩, ⟨2021, 12, 27⟩] : List PDate), c ≤ ⟨2022, 1, 2⟩) ∧
    calculate_break_indices
        (return_final_period_starts ⟨0, .daily, [⟨2021, 12, 24⟩, ⟨2021, 12, 25⟩, ⟨2021, 12, 27⟩]⟩
          ⟨2022, 1, 2⟩) Periodicity.daily ≠ [] :=
  ⟨by decide, by decide, by decide, by decide,
    C4_break_indices_ne_nil ⟨0, .daily, [⟨2021, 12, 24⟩, ⟨2021, 12, 25⟩, ⟨2021, 12, 27⟩]⟩
      ⟨2022, 1, 2⟩ (by decide) (by decide) (by decide) (by decide)⟩

/-- C3: for every habit with a non-empty completion history whose completions
are valid dates on or before the (valid) current date, the streak lengths sum
to the length of the final period-start sequence minus one. -/
theorem C3_streak_lengths_sum (habit : HabitDB) (today : PDate)
    (htoday : today.Valid) (hne : habit.completions ≠ [])
    (hvalid : ∀ c ∈ habit.completions, c.Valid) (hle : ∀ c ∈ habit.completions, c ≤ today) :
    (calculate_streak_lengths habit today).sum =
      ((return_final_period_starts habit today).length : Int) - 1 := by
  have htne : tidy_starts (calculate_period_starts habit.periodicity habit.completions) ≠ [] :=
    tidy_completions_ne_nil hne
  have hlen1 : 1 ≤ (tidy_starts (calculate_period_starts habit.periodicity habit.completions)).length :=
    List.length_pos.mpr htne
  have hsl : calculate_streak_lengths habit today =
      calculate_element_diffs ((-1 : Int) ::
        (calculate_break_indices (return_final_period_starts habit today) habit.periodicity).map
          Int.ofNat) := rfl
  rw [hsl, final_break_indices htoday hne hvalid hle, List.map_append]
  have hmap : (List.map Int.ofNat
      [(tidy_starts (calculate_period_starts habit.periodicity habit.completions)).length - 1]) =
      [Int.ofNat ((tidy_starts (calculate_period_starts habit.periodicity habit.completions)).length - 1)] := rfl
  rw [hmap, sum_diffs_cons_concat]
  rw [final_periods_eq, List.length_append]
  simp only [List.length_singleton, Int.ofNat_eq_natCast]
  omega

/-- C3 witness: the hypotheses hold and the conclusion follows at a concrete
daily habit. -/
theorem C3_witness :
    (⟨2022, 1, 2⟩ : PDate).Valid ∧
    ([⟨2021, 12, 24⟩, ⟨2021, 12, 25⟩, ⟨2021, 12, 27⟩] : List PDate) ≠ [] ∧
    (∀ c ∈ ([⟨2021, 12, 24⟩, ⟨2021, 12, 25⟩, ⟨2021, 12, 27⟩] : List PDate), c.Valid) ∧
    (∀ c ∈ ([⟨2021, 12, 24⟩, ⟨2021, 12, 25⟩, ⟨2021, 12, 27⟩] : List PDate), c ≤ ⟨2022, 1, 2⟩) ∧
    (calculate_streak_lengths ⟨0, .daily, [⟨2021, 12, 24⟩, ⟨2021, 12, 25⟩, ⟨2021, 12, 27⟩]⟩
        ⟨2022, 1, 2⟩).sum =
      ((return_final_period_starts ⟨0, .daily, [⟨2021, 12, 24⟩, ⟨2021, 12, 25⟩, ⟨2021, 12, 27⟩]⟩
          ⟨2022, 1, 2⟩).length : Int) - 1 :=
  ⟨by decide, by decide, by decide, by decide,
    C3_streak_lengths_sum ⟨0, .daily, [⟨2021, 12, 24⟩, ⟨2021, 12, 25⟩, ⟨2021, 12, 27⟩]⟩
      ⟨2022, 1, 2⟩ (by decide) (by decide) (by decide) (by decide)⟩

/-- C5: for every non-empty completion history of valid dates on or before the
(valid) current date, the final period-start sequence (tidied starts plus the
synthetic future period) is strictly increasing in the date order and hence
duplicate-free. -/
theorem C5_final_periods_strictly_increasing (habit : HabitDB) (today : PDate)
    (htoday : today.Valid) (_hne : habit.completions ≠ [])
    (hvalid : ∀ c ∈ habit.completions, c.Valid) (hle : ∀ c ∈ habit.completions, c ≤ today) :
    List.Pairwise (· < ·) (return_final_period_starts habit today) ∧
      (return_final_period_starts habit today).Nodup := by
  have hp : List.Pairwise (· < ·) (return_final_period_starts habit today) := by
    rw [final_periods_eq]
    rw [List.pairwise_append]
    refine ⟨tidy_starts_pairwise_lt _, by simp, ?_⟩
    intro x hx y hy
    have hyf : y = calculate_one_period_start habit.periodicity
        (addDays today (2 * return_allowed_time habit.periodicity).toNat) := by
      simpa using hy
    subst hyf
    have hxd := tidy_mem_le_today htoday hvalid hle hx
    have hfut := future_period_gap (p := habit.periodicity) htoday
    have hpos := allowed_time_pos habit.periodicity
    exact lt_of_toOrdinal_lt hxd.1 (future_period_valid htoday) (by omega)
  exact ⟨hp, hp.imp (fun h => pdate_ne_of_lt h)⟩

/-- C5 witness: the hypotheses hold and the conclusion follows at a concrete
weekly habit. -/
theorem C5_witness :
    (⟨2022, 1, 26⟩ : PDate).Valid ∧
    ([⟨2022, 1, 25⟩, ⟨2022, 1, 20⟩, ⟨2022, 1, 26⟩] : List PDate) ≠ [] ∧
    (∀ c ∈ ([⟨2022, 1, 25⟩, ⟨2022, 1, 20⟩, ⟨2022, 1, 26⟩] : List PDate), c.Valid) ∧
    (∀ c ∈ ([⟨2022, 1, 25⟩, ⟨2022, 1, 20⟩, ⟨2022, 1, 26⟩] : List PDate), c ≤ ⟨2022, 1, 26⟩) ∧
    (List.Pairwise (· < ·)
        (return_final_period_starts ⟨1, .weekly, [⟨2022, 1, 25⟩, ⟨2022, 1, 20⟩, ⟨2022, 1, 26⟩]⟩
          ⟨2022, 1, 26⟩) ∧
      (return_final_period_starts ⟨1, .weekly, [⟨2022, 1, 25⟩, ⟨2022, 1, 20⟩, ⟨2022, 1, 26⟩]⟩
          ⟨2022, 1, 26⟩).Nodup) :=
  ⟨by decide, by decide, by decide, by decide,
    C5_final_periods_strictly_increasing
      ⟨1, .weekly, [⟨2022, 1, 25⟩, ⟨2022, 1, 20⟩, ⟨2022, 1, 26⟩]⟩
      ⟨2022, 1, 26⟩ (by decide) (by decide) (by decide) (by decide)⟩

/-- C1: for every habit with a non-empty completion history whose completions
are valid dates on or before the (valid) current date: if the period start of
the day before the current period's start is not among the final periods,
`calculate_curr_streak` returns 1 when the current period start is among them
and 0 when it is not; otherwise it returns the last element of
`calculate_streak_lengths`. -/
theorem C1_curr_streak_spec (habit : HabitDB) (today : PDate)
    (htoday : today.Valid) (hne : habit.completions ≠ [])
    (hvalid : ∀ c ∈ habit.completions, c.Valid) (hle : ∀ c ∈ habit.completions, c ≤ today) :
    (calculate_one_period_start habit.periodicity
        (subDays (calculate_one_period_start habit.periodicity today) 1) ∉
          return_final_period_starts habit today →
      calculate_curr_streak habit today =
        some (if calculate_one_period_start habit.periodicity today ∈
            return_final_period_starts habit today then 1 else 0)) ∧
    (calculate_one_period_start habit.periodicity
        (subDays (calculate_one_period_start habit.periodicity today) 1) ∈
          return_final_period_starts habit today →
      ∃ last, (calculate_streak_lengths habit today).getLast? = some last ∧
        calculate_curr_streak habit today = some last) := by
  constructor
  · intro hnp
    have h1 : completed_in_period (return_final_period_starts habit today) habit.periodicity
        PeriodName.previous today = false := decide_eq_false hnp
    by_cases hc : calculate_one_period_start habit.periodicity today ∈
        return_final_period_starts habit today
    · have h2 : completed_in_period (return_final_period_starts habit today) habit.periodicity
          PeriodName.current today = true := decide_eq_true hc
      simp [calculate_curr_streak, h1, h2, hc]
    · have h2 : completed_in_period (return_final_period_starts habit today) habit.periodicity
          PeriodName.current today = false := decide_eq_false hc
      simp [calculate_curr_streak, h1, h2, hc]
  · intro hp
    have h1 : completed_in_period (return_final_period_starts habit today) habit.periodicity
        PeriodName.previous today = true := decide_eq_true hp
    have hcs : calculate_curr_streak habit today =
        (calculate_streak_lengths habit today).getLast? := by
      simp [calculate_curr_streak, h1]
    have hbne := C4_break_indices_ne_nil habit today htoday hne hvalid hle
    have hlen : (calculate_streak_lengths habit today).length =
        ((-1 : Int) ::
          (calculate_break_indices (return_final_period_starts habit today) habit.periodicity).map
            Int.ofNat).length - 1 := element_diffs_length _
    have hsl_ne : calculate_streak_lengths habit today ≠ [] := by
      intro h0
      have hl0 := congrArg List.length h0
      rw [hlen] at hl0
      simp at hl0
      exact hbne hl0
    exact ⟨(calculate_streak_lengths habit today).getLast hsl_ne,
      List.getLast?_eq_getLast _ hsl_ne, by rw [hcs, List.getLast?_eq_getLast _ hsl_ne]⟩

/-- C1 witness: the hypotheses hold and the conclusion follows at a concrete
daily habit. -/
theorem C1_witness :
    (⟨2021, 12, 28⟩ : PDate).Valid ∧
    ([⟨2021, 12, 26⟩, ⟨2021, 12, 27⟩] : List PDate) ≠ [] ∧
    (∀ c ∈ ([⟨2021, 12, 26⟩, ⟨2021, 12, 27⟩] : List PDate), c.Valid) ∧
    (∀ c ∈ ([⟨2021, 12, 26⟩, ⟨2021, 12, 27⟩] : List PDate), c ≤ ⟨2021, 12, 28⟩) ∧
    ((calculate_one_period_start Periodicity.daily
        (subDays (calculate_one_period_start Periodicity.daily ⟨2021, 12, 28⟩) 1) ∉
          return_final_period_starts ⟨2, .daily, [⟨2021, 12, 26⟩, ⟨2021, 12, 27⟩]⟩ ⟨2021, 12, 28⟩ →
      calculate_curr_streak ⟨2, .daily, [⟨2021, 12, 26⟩, ⟨2021, 12, 27⟩]⟩ ⟨2021, 12, 28⟩ =
        some (if calculate_one_period_start Periodicity.daily ⟨2021, 12, 28⟩ ∈
            return_final_period_starts ⟨2, .daily, [⟨2021, 12, 26⟩, ⟨2021, 12, 27⟩]⟩ ⟨2021, 12, 28⟩
          then 1 else 0)) ∧
    (calculate_one_period_start Periodicity.daily
        (subDays (calculate_one_period_start Periodicity.daily ⟨2021, 12, 28⟩) 1) ∈
          return_final_period_starts ⟨2, .daily, [⟨2021, 12, 26⟩, ⟨2021, 12, 27⟩]⟩ ⟨2021, 12, 28⟩ →
      ∃ last, (calculate_streak_lengths ⟨2, .daily, [⟨2021, 12, 26⟩, ⟨2021, 12, 27⟩]⟩
          ⟨2021, 12, 28⟩).getLast? = some last ∧
        calculate_curr_streak ⟨2, .daily, [⟨2021, 12, 26⟩, ⟨2021, 12, 27⟩]⟩ ⟨2021, 12, 28⟩ =
          some last)) :=
  ⟨by decide, by decide, by decide, by decide,
    C1_curr_streak_spec ⟨2, .daily, [⟨2021, 12, 26⟩, ⟨2021, 12, 27⟩]⟩ ⟨2021, 12, 28⟩
      (by decide) (by decide) (by decide) (by decide)⟩

/-- C2: for every habit with a non-empty completion history whose completions
are valid dates on or before the (valid) current date, `calculate_break_no`
returns the length of the break-index list minus one when the current or the
immediately preceding period start is among the final periods, and the
unchanged length otherwise. -/
theorem C2_break_no_spec (habit : HabitDB) (today : PDate)
    (_htoday : today.Valid) (_hne : habit.completions ≠ [])
    (_hvalid : ∀ c ∈ habit.completions, c.Valid) (_hle : ∀ c ∈ habit.completions, c ≤ today) :
    calculate_break_no habit today =
      if calculate_one_period_start habit.periodicity today ∈
            return_final_period_starts habit today ∨
          calculate_one_period_start habit.periodicity
              (subDays (calculate_one_period_start habit.periodicity today) 1) ∈
            return_final_period_starts habit today
      then ((calculate_break_indices (return_final_period_starts habit today)
          habit.periodicity).length : Int) - 1
      else ((calculate_break_indices (return_final_period_starts habit today)
          habit.periodicity).length : Int) := by
  by_cases hc : calculate_one_period_start habit.periodicity today ∈
      return_final_period_starts habit today
  · have h2 : completed_in_period (return_final_period_starts habit today) habit.periodicity
        PeriodName.current today = true := decide_eq_true hc
    simp [calculate_break_no, h2, hc]
  · have h2 : completed_in_period (return_final_period_starts habit today) habit.periodicity
        PeriodName.current today = false := decide_eq_false hc
    by_cases hp : calculate_one_period_start habit.periodicity
        (subDays (calculate_one_period_start habit.periodicity today) 1) ∈
          return_final_period_starts habit today
    · have h1 : completed_in_period (return_final_period_starts habit today) habit.periodicity
          PeriodName.previous today = true := decide_eq_true hp
      simp [calculate_break_no, h1, h2, hc, hp]
    · have h1 : completed_in_period (return_final_period_starts habit today) habit.periodicity
          PeriodName.previous today = false := decide_eq_false hp
      simp [calculate_break_no, h1, h2, hc, hp]

/-- C2 witness: the hypotheses hold and the conclusion follows at a concrete
daily habit. -/
theorem C2_witness :
    (⟨2022, 1, 2⟩ : PDate).Valid ∧
    ([⟨2021, 12, 29⟩, ⟨2021, 12, 27⟩] : List PDate) ≠ [] ∧
    (∀ c ∈ ([⟨2021, 12, 29⟩, ⟨2021, 12, 27⟩] : List PDate), c.Valid) ∧
    (∀ c ∈ ([⟨2021, 12, 29⟩, ⟨2021, 12, 27⟩] : List PDate), c ≤ ⟨2022, 1, 2⟩) ∧
    calculate_break_no ⟨3, .daily, [⟨2021, 12, 29⟩, ⟨2021, 12, 27⟩]⟩ ⟨2022, 1, 2⟩ =
      (if calculate_one_period_start Periodicity.daily ⟨2022, 1, 2⟩ ∈
            return_final_period_starts ⟨3, .daily, [⟨2021, 12, 29⟩, ⟨2021, 12, 27⟩]⟩ ⟨2022, 1, 2⟩ ∨
          calculate_one_period_start Periodicity.daily
              (subDays (calculate_one_period_start Periodicity.daily ⟨2022, 1, 2⟩) 1) ∈
            return_final_period_starts ⟨3, .daily, [⟨2021, 12, 29⟩, ⟨2021, 12, 27⟩]⟩ ⟨2022, 1, 2⟩
      then ((calculate_break_indices
          (return_final_period_starts ⟨3, .daily, [⟨2021, 12, 29⟩, ⟨2021, 12, 27⟩]⟩ ⟨2022, 1, 2⟩)
          Periodicity.daily).length : Int) - 1
      else ((calculate_break_indices
          (return_final_period_starts ⟨3, .daily, [⟨2021, 12, 29⟩, ⟨2021, 12, 27⟩]⟩ ⟨2022, 1, 2⟩)
          Periodicity.daily).length : Int)) :=
  ⟨by decide, by decide, by decide, by decide,
    C2_break_no_spec ⟨3, .daily, [⟨2021, 12, 29⟩, ⟨2021, 12, 27⟩]⟩ ⟨2022, 1, 2⟩
      (by decide) (by decide) (by decide) (by decide)⟩

/-- C6 counterexample: for the weekly periodicity with current date 2022-01-19
(a Wednesday), `add_future_period` appends 2022-01-31, which is twelve days
ahead — strictly less than now plus two allowed gaps (fourteen days).  The
claim `future_period >= now + 2 * allowedGap` is false. -/
theorem C6_counterexample :
    add_future_period [] Periodicity.weekly ⟨2022, 1, 19⟩ = [⟨2022, 1, 31⟩] ∧
      toOrdinal ⟨2022, 1, 31⟩ <
        toOrdinal (⟨2022, 1, 19⟩ : PDate) + 2 * return_allowed_time Periodicity.weekly := by
  constructor
  · decide
  · decide

/-- C6 amended: for every periodicity and valid current date, the single
synthetic period appended by `add_future_period` is strictly in the future
and lies strictly more than one allowed gap beyond the current date (the jump
of two allowed gaps happens before bucketing, so up to one period slack is
lost again). -/
theorem C6_amended_future_period (l : List PDate) (p : Periodicity) (today : PDate)
    (htoday : today.Valid) :
    ∃ f, add_future_period l p today = l ++ [f] ∧
      toOrdinal today < toOrdinal f ∧
      toOrdinal today + return_allowed_time p < toOrdinal f := by
  refine ⟨calculate_one_period_start p (addDays today (2 * return_allowed_time p).toNat),
    rfl, ?_, ?_⟩
  · have h1 := future_period_gap (p := p) htoday
    have h2 := allowed_time_pos p
    omega
  · exact future_period_gap htoday

/-- C6 witness: the hypothesis holds and the amended conclusion follows at a
concrete input. -/
theorem C6_witness :
    (⟨2022, 1, 19⟩ : PDate).Valid ∧
    ∃ f, add_future_period [] Periodicity.weekly ⟨2022, 1, 19⟩ = [] ++ [f] ∧
      toOrdinal (⟨2022, 1, 19⟩ : PDate) < toOrdinal f ∧
      toOrdinal (⟨2022, 1, 19⟩ : PDate) + return_allowed_time Periodicity.weekly < toOrdinal f :=
  ⟨by decide, C6_amended_future_period [] Periodicity.weekly ⟨2022, 1, 19⟩ (by decide)⟩

/-- C7 counterexample: `calculate_worst_completion_rate_of_all` applied to an
empty habit list raises `ValueError` (Python's `min` over the empty rate
dict) instead of returning an explicit no-data result. -/
theorem C7_counterexample :
    calculate_worst_completion_rate_of_all [] ⟨2022, 1, 19⟩ =
      Except.error PyError.valueError := rfl

/-- C7 amended: over an empty habit list, `calculate_longest_streak_of_all`
returns the explicit no-data pair `(None, None)` without raising, while
`calculate_worst_completion_rate_of_all` raises `ValueError`. -/
theorem C7_amended_empty_reducers (today : PDate) :
    calculate_longest_streak_of_all [] today = (none, none) ∧
      calculate_worst_completion_rate_of_all [] today = Except.error PyError.valueError :=
  ⟨rfl, rfl⟩

/-- C8: every completion-rate entry produced by
`calculate_completion_rate_per_habit` comes from a daily or weekly habit of
the input list; no completion rate is ever computed from a monthly or yearly
habit. -/
theorem C8_completion_rate_only_frequent (completed_habits : List HabitDB) (today : PDate)
    (pr : Nat × ℚ) (hpr : pr ∈ calculate_completion_rate_per_habit completed_habits today) :
    ∃ h ∈ completed_habits,
      (h.periodicity = Periodicity.daily ∨ h.periodicity = Periodicity.weekly) ∧
      pr.1 = h.name ∧ pr.2 = calculate_completion_rate h today := by
  simp only [calculate_completion_rate_per_habit, List.mem_map, List.mem_filter] at hpr
  obtain ⟨h, ⟨hmem, hper⟩, rfl⟩ := hpr
  exact ⟨h, hmem, of_decide_eq_true hper, rfl, rfl⟩

/-- C8 witness: the membership hypothesis holds and the conclusion follows at
a concrete daily habit. -/
theorem C8_witness :
    ((4, calculate_completion_rate ⟨4, .daily, [⟨2022, 1, 10⟩]⟩ ⟨2022, 1, 19⟩) ∈
        calculate_completion_rate_per_habit [⟨4, .daily, [⟨2022, 1, 10⟩]⟩] ⟨2022, 1, 19⟩) ∧
      ∃ h ∈ [(⟨4, .daily, [⟨2022, 1, 10⟩]⟩ : HabitDB)],
        (h.periodicity = Periodicity.daily ∨ h.periodicity = Periodicity.weekly) ∧
        (4, calculate_completion_rate ⟨4, .daily, [⟨2022, 1, 10⟩]⟩ ⟨2022, 1, 19⟩).1 = h.name ∧
        (4, calculate_completion_rate ⟨4, .daily, [⟨2022, 1, 10⟩]⟩ ⟨2022, 1, 19⟩).2 =
          calculate_completion_rate h ⟨2022, 1, 19⟩ := by
  have hpr : (4, calculate_completion_rate ⟨4, .daily, [⟨2022, 1, 10⟩]⟩ ⟨2022, 1, 19⟩) ∈
      calculate_completion_rate_per_habit [⟨4, .daily, [⟨2022, 1, 10⟩]⟩] ⟨2022, 1, 19⟩ :=
    List.mem_singleton.mpr rfl
  exact ⟨hpr, C8_completion_rate_only_frequent _ _ _ hpr⟩

/-- C9: the source reads the clock (`date.today()`) inside the analysis
functions instead of taking "now" as an explicit parameter.  Modelling the
clock reading as the explicit `today` argument, the same stored habit data
yields different current streaks at different clock readings: the result is
not a function of the stored inputs alone, as the specification requires. -/
theorem C9_clock_dependence :
    calculate_curr_streak ⟨5, .daily, [⟨2022, 1, 1⟩]⟩ ⟨2022, 1, 1⟩ = some 1 ∧
      calculate_curr_streak ⟨5, .daily, [⟨2022, 1, 1⟩]⟩ ⟨2022, 1, 3⟩ = some 0 := by
  constructor
  · decide
  · decide

/-! ## Month/year gap classification -/

theorem ord_month_start (y : Int) (m : Nat) :
    toOrdinal ⟨y, m, 1⟩ = daysBeforeYear y + (daysBeforeMonth y m : Int) := by
  simp [toOrdinal]

theorem month_start_valid {y : Int} {m : Nat} (h1 : 1 ≤ m) (h2 : m ≤ 12) :
    (⟨y, m, 1⟩ : PDate).Valid := by
  refine ⟨h1, h2, le_refl 1, ?_⟩
  have hb := (daysInMonth_bounds y m h1 h2).1
  show (1:Nat) ≤ daysInMonth y m
  omega

theorem two_months_ge (y : Int) {m : Nat} (h1 : 1 ≤ m) (h2 : m ≤ 11) :
    59 ≤ daysInMonth y m + daysInMonth y (m + 1) := by
  interval_cases m <;> simp only [daysInMonth] <;> first
    | omega
    | (split <;> omega)

theorem dbm_gap (y : Int) {m m' : Nat} (h1 : 1 ≤ m) (h : m + 2 ≤ m') (h12 : m' ≤ 12) :
    daysBeforeMonth y m + 59 ≤ daysBeforeMonth y m' := by
  have hg := two_months_ge y h1 (by omega)
  have hs1 : daysBeforeMonth y (m + 2) =
      daysBeforeMonth y m + daysInMonth y m + daysInMonth y (m + 1) := by
    rw [daysBeforeMonth_succ, daysBeforeMonth_succ]
  have hmono := daysBeforeMonth_mono y h
  omega

theorem dbm_tail_ge (y : Int) {m : Nat} (h1 : 1 ≤ m) (h2 : m ≤ 11) :
    daysBeforeMonth y m + 59 ≤ daysInYear y := by
  have hg := two_months_ge y h1 h2
  have hs1 : daysBeforeMonth y (m + 2) =
      daysBeforeMonth y m + daysInMonth y m + daysInMonth y (m + 1) := by
    rw [daysBeforeMonth_succ, daysBeforeMonth_succ]
  have hmono := daysBeforeMonth_mono y (show m + 2 ≤ 13 by omega)
  have h13 := daysBeforeMonth_thirteen y
  omega

/-- C10: the fixed allowed gaps (32 days monthly, 366 days yearly) classify
breaks exactly on period starts.  For first-of-month dates in increasing
order, the gap exceeds 32 days if and only if the months are not adjacent
(adjacent month starts differ by 28-31 days, non-adjacent by at least 59);
for January-1 dates, the gap exceeds 366 days if and only if the years are
not adjacent (adjacent year starts differ by 365 or 366 days, non-adjacent by
at least 730).  Hence `calculate_break_indices` never misclassifies a gap
between genuine period starts. -/
theorem C10_gap_classification :
    (∀ (y y' : Int) (m m' : Nat), 1 ≤ m → m ≤ 12 → 1 ≤ m' → m' ≤ 12 →
      toOrdinal ⟨y, m, 1⟩ < toOrdinal ⟨y', m', 1⟩ →
      ((return_allowed_time Periodicity.monthly <
          toOrdinal ⟨y', m', 1⟩ - toOrdinal ⟨y, m, 1⟩) ↔
        ¬ ((y' = y ∧ m' = m + 1) ∨ (y' = y + 1 ∧ m = 12 ∧ m' = 1)))) ∧
    (∀ y y' : Int, y < y' →
      ((return_allowed_time Periodicity.yearly <
          toOrdinal ⟨y', 1, 1⟩ - toOrdinal ⟨y, 1, 1⟩) ↔ y' ≠ y + 1)) := by
  have hallow_m : return_allowed_time Periodicity.monthly = 32 := rfl
  have hallow_y : return_allowed_time Periodicity.yearly = 366 := rfl
  constructor
  · intro y y' m m' h1 h2 h1' h2' hord
    rw [ord_month_start, ord_month_start] at hord ⊢
    rw [hallow_m]
    have hvd : (⟨y, m, 1⟩ : PDate).Valid := month_start_valid h1 h2
    have hvd' : (⟨y', m', 1⟩ : PDate).Valid := month_start_valid h1' h2'
    rcases Int.lt_trichotomy y y' with hy | hy | hy
    · -- y < y'
      rcases Int.lt_or_le (y + 1) y' with hy2 | hy2
      · -- y' at least two years on: gap at least 730 - 366
        have hadd := daysBeforeYear_add_le (y + 2) ((y' - (y + 2)).toNat)
        have hyy : (y + 2) + ((y' - (y + 2)).toNat : Int) = y' := by omega
        rw [hyy] at hadd
        have hs1 := daysBeforeYear_succ y
        have hs2 : daysBeforeYear (y + 2) = daysBeforeYear (y + 1) + daysInYear (y + 1) := by
          have h0 := daysBeforeYear_succ (y + 1)
          have h22 : y + 1 + 1 = y + 2 := by ring
          rwa [h22] at h0
        have hb1 := (daysInYear_bounds y).1
        have hb2 := (daysInYear_bounds (y + 1)).1
        have hm13 : daysBeforeMonth y m ≤ daysInYear y := by
          have := daysBeforeMonth_mono y (show m ≤ 13 by omega)
          have h13 := daysBeforeMonth_thirteen y
          omega
        have hy366 := (daysInYear_bounds y).2
        constructor
        · intro _
          rintro (⟨rfl, _⟩ | ⟨rfl, _, _⟩) <;> omega
        · intro _
          have hnn : (0:Int) ≤ ((y' - (y + 2)).toNat : Int) := by omega
          omega
      · -- y' = y + 1
        have hy1 : y' = y + 1 := by omega
        subst hy1
        have hs1 := daysBeforeYear_succ y
        rcases Nat.lt_or_ge m 12 with hm12 | hm12
        · -- m ≤ 11: at least two months of year y remain before January 1
          have htail := dbm_tail_ge y h1 (by omega)
          have hdbm' : (0:Nat) ≤ daysBeforeMonth (y + 1) m' := Nat.zero_le _
          constructor
          · intro _
            rintro (⟨hh, _⟩ | ⟨_, hh12, _⟩)
            · omega
            · omega
          · intro _
            omega
        · -- m = 12
          have hm : m = 12 := by omega
          subst hm
          have h1213 : daysBeforeMonth y 13 = daysBeforeMonth y 12 + daysInMonth y 12 :=
            daysBeforeMonth_succ y 12
          have h13 := daysBeforeMonth_thirteen y
          have hd31 : daysInMonth y 12 = 31 := rfl
          rcases Nat.lt_or_ge 1 m' with hm'2 | hm'1
          · -- m' at least 2: not adjacent, gap at least 62
            have hdbm2 : daysBeforeMonth (y + 1) 2 = 31 := rfl
            have hmono := daysBeforeMonth_mono (y + 1) (show 2 ≤ m' by omega)
            constructor
            · intro _
              rintro (⟨hh, _⟩ | ⟨_, _, hh1⟩) <;> omega
            · intro _
              omega
          · -- m' = 1: the adjacent December-to-January step, gap 31
            have hm' : m' = 1 := by omega
            subst hm'
            have hz : daysBeforeMonth (y + 1) 1 = 0 := rfl
            constructor
            · intro hgt
              omega
            · intro hnot
              exfalso
              exact hnot (Or.inr ⟨rfl, rfl, rfl⟩)
    · -- same year
      subst hy
      rcases Nat.lt_trichotomy m m' with hm | hm | hm
      · rcases Nat.lt_or_ge (m + 1) m' with hm2 | hm2
        · -- at least two months apart
          have hgap := dbm_gap y h1 (show m + 2 ≤ m' by omega) h2'
          constructor
          · intro _
            rintro (⟨_, hh⟩ | ⟨hh, _, _⟩) <;> omega
          · intro _
            omega
        · -- adjacent months within the year: gap is one month length
          have hm1 : m' = m + 1 := by omega
          subst hm1
          have hsucc := daysBeforeMonth_succ y m
          have hb := daysInMonth_bounds y m h1 (by omega)
          constructor
          · intro hgt
            omega
          · intro hnot
            exfalso
            exact hnot (Or.inl ⟨rfl, rfl⟩)
      · subst hm
        omega
      · -- m' < m contradicts the ordering hypothesis
        have hmono := daysBeforeMonth_mono y (show m' + 1 ≤ m by omega)
        have hsucc := daysBeforeMonth_succ y m'
        have hb := daysInMonth_bounds y m' h1' (by omega)
        omega
    · -- y' < y contradicts the ordering hypothesis
      have hlt := toOrdinal_lt_of_lt hvd' hvd (Or.inl hy)
      rw [ord_month_start, ord_month_start] at hlt
      omega
  · intro y y' hy
    rw [ord_month_start, ord_month_start, hallow_y]
    have hz : daysBeforeMonth y 1 = 0 := rfl
    have hz' : daysBeforeMonth y' 1 = 0 := rfl
    rcases Int.lt_or_le (y + 1) y' with hy2 | hy2
    · -- at least two years apart: gap at least 730
      have hadd := daysBeforeYear_add_le (y + 2) ((y' - (y + 2)).toNat)
      have hyy : (y + 2) + ((y' - (y + 2)).toNat : Int) = y' := by omega
      rw [hyy] at hadd
      have hs1 := daysBeforeYear_succ y
      have hs2 : daysBeforeYear (y + 2) = daysBeforeYear (y + 1) + daysInYear (y + 1) := by
        have h0 := daysBeforeYear_succ (y + 1)
        have h22 : y + 1 + 1 = y + 2 := by ring
        rwa [h22] at h0
      have hb1 := (daysInYear_bounds y).1
      have hb2 := (daysInYear_bounds (y + 1)).1
      have hnn : (0:Int) ≤ ((y' - (y + 2)).toNat : Int) := by omega
      constructor
      · intro _
        omega
      · intro _
        omega
    · -- adjacent years: gap is one year length, at most 366
      have hy1 : y' = y + 1 := by omega
      subst hy1
      have hs1 := daysBeforeYear_succ y
      have hb := (daysInYear_bounds y).2
      constructor
      · intro hgt
        omega
      · intro hne
        exact absurd rfl hne

/-- C10 witness: the hypotheses hold and the classification follows at
concrete inputs (January vs March 2022; years 2020 and 2021). -/
theorem C10_witness :
    ((1:Nat) ≤ 1) ∧ ((1:Nat) ≤ 12) ∧ ((1:Nat) ≤ 3) ∧ ((3:Nat) ≤ 12) ∧
    (toOrdinal ⟨2022, 1, 1⟩ < toOrdinal ⟨2022, 3, 1⟩) ∧
    ((return_allowed_time Periodicity.monthly <
        toOrdinal ⟨2022, 3, 1⟩ - toOrdinal ⟨2022, 1, 1⟩) ↔
      ¬ (((2022:Int) = 2022 ∧ (3:Nat) = 1 + 1) ∨
        ((2022:Int) = 2022 + 1 ∧ (1:Nat) = 12 ∧ (3:Nat) = 1))) ∧
    ((2020:Int) < 2021) ∧
    ((return_allowed_time Periodicity.yearly <
        toOrdinal ⟨2021, 1, 1⟩ - toOrdinal ⟨2020, 1, 1⟩) ↔ (2021:Int) ≠ 2020 + 1) :=
  ⟨by decide, by decide, by decide, by decide, by decide,
    C10_gap_classification.1 2022 2022 1 3 (by decide) (by decide) (by decide) (by decide)
      (by decide),
    by decide,
    C10_gap_classification.2 2020 2021 (by decide)⟩

/-- C7 witness: the amended conclusion instantiated at a concrete date. -/
theorem C7_witness :
    calculate_longest_streak_of_all [] ⟨2022, 1, 19⟩ = (none, none) ∧
      calculate_worst_completion_rate_of_all [] ⟨2022, 1, 19⟩ =
        Except.error PyError.valueError :=
  C7_amended_empty_reducers ⟨2022, 1, 19⟩
